import Mathlib

/-!
Verification development for the Gamerz real-time room-messaging subsystem.

The definitions below are a shallow embedding of the repository's code:

* the Socket.IO server handlers registered in `initializeSocketIO`
  (backend `utils/socket.ts`): the `join_room`, `leave_room`, `new_message`
  and `disconnect` handlers;
* the Socket.IO adapter semantics those handlers invoke (`socket.join`,
  `socket.leave`, `socket.to(room).emit`, `io.to(room).emit`, and the
  core's removal of a disconnected socket from every room) — rooms are
  sets of socket ids, modelled as duplicate-free lists;
* the Express routes `POST /:id/messages` (body-bypass middleware,
  `requireApprovedUser`, and the handler) and `POST /:id/messages/direct`
  from the chatroom router;
* the client-side `sendMessage` of the `SocketProvider`, which persists
  via `POST /:id/messages/direct` and then emits `new_message`.

JavaScript string falsiness (absent or empty) is modelled by `truthy` on
`Option String`; `jsTrim` models `String.prototype.trim` (strip leading
and trailing whitespace); string `.length` is the character count
(identical to JS for the ASCII inputs considered here).
-/

namespace Gamerz

/-- The user record attached to a socket at authentication time
(`socket.data.user`, loaded from the Users collection), and likewise the
`req.user` object of the Express middlewares: id, username and the
approval status (one of "pending", "approved", "rejected", "banned"). -/
structure UserRec where
  userId : String
  username : String
  status : String
deriving DecidableEq, Repr

/-- The fields of a `new_message` payload that the server handler reads:
`message.roomId` and `message.content`. An absent field is modelled as "",
which is exactly what the handler's falsiness test rejects. -/
structure MsgPayload where
  roomId : String
  content : String
deriving DecidableEq, Repr

/-- Socket.IO adapter state: each room id maps to the list of member socket
ids. The adapter keeps rooms as sets; all operations below preserve
duplicate-freeness, and membership operations are set operations. -/
structure ServerState where
  rooms : String → List String

/-- membersOf(room): the room's current member sockets (empty when the room
has never been joined). -/
def membersOf (st : ServerState) (room : String) : List String :=
  st.rooms room

/-- `socket.join(roomId)`: adds the socket to the room's set; a second join
by the same socket is a no-op (Set semantics of the adapter). -/
def socketJoin (st : ServerState) (room conn : String) : ServerState :=
  ⟨fun r =>
    if r = room then
      if conn ∈ st.rooms r then st.rooms r else conn :: st.rooms r
    else st.rooms r⟩

/-- `socket.leave(roomId)`: removes the socket from the room's set;
leaving a room one is not in is a no-op. -/
def socketLeave (st : ServerState) (room conn : String) : ServerState :=
  ⟨fun r =>
    if r = room then (st.rooms r).filter (fun m => m != conn)
    else st.rooms r⟩

/-- `socket.to(roomId).emit(...)` target set: every member of the room
except the emitting socket itself. -/
def socketTo (st : ServerState) (room self : String) : List String :=
  (membersOf st room).filter (fun m => m != self)

/-- `io.to(roomId).emit(...)` target set: every member of the room,
the originating socket included. -/
def ioTo (st : ServerState) (room : String) : List String :=
  membersOf st room

/-- Socket.IO core behaviour on disconnect: the socket is removed from
every room it was in (this happens in the transport core, not in the
repository's `disconnect` handler, whose body only logs). -/
def disconnectCleanup (st : ServerState) (conn : String) : ServerState :=
  ⟨fun r => (st.rooms r).filter (fun m => m != conn)⟩

/-- An emission performed by a handler: the event name, the target sockets
resolved at emission time, and the payload fields the tests care about. -/
inductive SEvent where
  | userJoined (room : String) (targets : List String) (userId username : String)
  | userLeft (room : String) (targets : List String) (userId username : String)
  | newMessage (room : String) (targets : List String) (payload : MsgPayload)
  | errorTo (conn : String) (errmsg : String)
deriving DecidableEq, Repr

/-- The `join_room` handler of `initializeSocketIO`: `socket.join(roomId)`,
then `socket.to(roomId).emit(USER_JOINED, {userId, username, timestamp})`.
The source performs no approval-status check and no validation of
`roomId`; the try/catch is dead code here since neither operation throws. -/
def joinRoomHandler (st : ServerState) (conn : String) (user : UserRec)
    (roomId : String) : ServerState × List SEvent :=
  let st1 := socketJoin st roomId conn
  (st1, [SEvent.userJoined roomId (socketTo st1 roomId conn)
          user.userId user.username])

/-- The `leave_room` handler: `socket.leave(roomId)`, then
`socket.to(roomId).emit(USER_LEFT, {userId, username, timestamp})`. -/
def leaveRoomHandler (st : ServerState) (conn : String) (user : UserRec)
    (roomId : String) : ServerState × List SEvent :=
  let st1 := socketLeave st roomId conn
  (st1, [SEvent.userLeft roomId (socketTo st1 roomId conn)
          user.userId user.username])

/-- The `new_message` handler: destructures `{roomId, content}` from the
payload; if either is falsy it throws, which the catch turns into an
`error` emission back to the sender; otherwise
`io.to(roomId).emit(NEW_MESSAGE, message)` — all current members of the
room, the sender's own socket included. No approval-status check and no
persistence check appear in the source. -/
def newMessageHandler (st : ServerState) (conn : String) (msg : MsgPayload) :
    ServerState × List SEvent :=
  if msg.roomId = "" ∨ msg.content = "" then
    (st, [SEvent.errorTo conn "Failed to send message"])
  else
    (st, [SEvent.newMessage msg.roomId (ioTo st msg.roomId) msg])

/-- The `disconnect` handler: its body only logs; the membership purge is
the Socket.IO core's `disconnectCleanup`. No `user_left` notification is
emitted on disconnect. -/
def disconnectHandler (st : ServerState) (conn : String) :
    ServerState × List SEvent :=
  (disconnectCleanup st conn, [])

/-- The `new_message` emissions among a handler's events, as
(room, resolved target sockets) pairs. -/
def newMessageEmissions (evs : List SEvent) : List (String × List String) :=
  evs.filterMap (fun e =>
    match e with
    | SEvent.newMessage room targets _ => some (room, targets)
    | _ => none)

/-- The `user_left` emissions among a handler's events. -/
def userLeftEmissions (evs : List SEvent) : List (String × List String) :=
  evs.filterMap (fun e =>
    match e with
    | SEvent.userLeft room targets _ _ => some (room, targets)
    | _ => none)

/-- JavaScript truthiness of an optional string field of `req.body`:
falsy when the field is absent or the empty string. -/
def truthy : Option String → Bool
  | none => false
  | some s => s != ""

/-- `String.prototype.trim`: strip leading and trailing whitespace
(modelled on the character list so that it evaluates by reduction). -/
def jsTrim (s : String) : String :=
  ⟨((s.toList.dropWhile Char.isWhitespace).reverse.dropWhile
      Char.isWhitespace).reverse⟩

/-- A parsed JSON body of the two message-posting routes. Fields the code
reads: `content`, `userId`, `username`, `userStatus`. -/
structure Body where
  content : Option String
  userId : Option String
  username : Option String
  userStatus : Option String
deriving DecidableEq, Repr

/-- A persisted `Message` document as the routes create it:
`{roomId: id, senderId: userId, content: content.trim()}`. -/
structure StoredMsg where
  roomId : String
  senderId : String
  content : String
deriving DecidableEq, Repr

/-- The document store as the two routes see it: the set of chatroom ids
(`ChatRoom.findById` succeeds exactly on these) and the appended message
log (`newMessage.save()` appends). -/
structure DB where
  chatrooms : List String
  messages : List StoredMsg
deriving DecidableEq, Repr

/-- `mongoose.Types.ObjectId.isValid`: a 24-character hex string, or any
12-character string (a 12-byte buffer). -/
def isValidObjectId (s : String) : Bool :=
  (s.length == 24 &&
    s.toList.all (fun c =>
      c.isDigit || (('a' ≤ c) && (c ≤ 'f')) || (('A' ≤ c) && (c ≤ 'F')))) ||
  s.length == 12

/-- An HTTP response of the message routes: status code, the `message`
field of the JSON body, and the created document on 201 (`data`). -/
structure HttpResponse where
  status : Nat
  message : String
  data : Option StoredMsg
deriving DecidableEq, Repr

/-- `requireApprovedUser` (authMiddleware.ts): 401 when no `req.user` is
attached, 403 unless `req.user.status === "approved"`, otherwise passes
the user through. -/
def requireApprovedUser (reqUser : Option UserRec) :
    Except HttpResponse UserRec :=
  match reqUser with
  | none => Except.error ⟨401, "Authentication required", none⟩
  | some u =>
    if u.status = "approved" then Except.ok u
    else Except.error
      ⟨403, "Your account must be approved to perform this action", none⟩

/-- The first middleware of `POST /:id/messages`: when the body carries a
truthy `userId` together with `userStatus === "approved"`, it attaches
`{userId, username, status: userStatus}` from the body as `req.user` and
skips authentication entirely; otherwise it falls through to
`requireApprovedUser` — with `req.user` unset, because no
`authenticateUser` runs on this route, so that branch always yields 401.
An absent `username` is modelled as "". -/
def messagesAuthMiddleware (body : Body) : Except HttpResponse UserRec :=
  if truthy body.userId ∧ body.userStatus = some "approved" then
    Except.ok ⟨body.userId.getD "", body.username.getD "", "approved"⟩
  else
    requireApprovedUser none

/-- The `POST /:id/messages` handler body, after the middleware attached
`req.user`: 401 when `req.user.userId` is falsy, 400 on an invalid
ObjectId, 404 when no chatroom matches the id, 400 when
`!content?.trim() || content.length > 1000` (the length test uses the
untrimmed content), otherwise saves
`{roomId: id, senderId: userId, content: content.trim()}` and answers
201. (The handler's fallback that reads `userId` from the body is dead
code on this route: the middleware always attaches a user with a truthy
`userId` or short-circuits.) -/
def postMessagesHandler (db : DB) (u : UserRec) (id : String) (body : Body) :
    HttpResponse × DB :=
  if u.userId = "" then
    (⟨401, "User not authenticated", none⟩, db)
  else if ¬ isValidObjectId id then
    (⟨400, "Invalid chatroom ID format", none⟩, db)
  else if id ∉ db.chatrooms then
    (⟨404, "Chatroom not found", none⟩, db)
  else
    match body.content with
    | none =>
      (⟨400, "Message content must be between 1 and 1000 characters", none⟩,
        db)
    | some c =>
      if jsTrim c = "" ∨ c.length > 1000 then
        (⟨400, "Message content must be between 1 and 1000 characters",
           none⟩, db)
      else
        (⟨201, "Message sent successfully", some ⟨id, u.userId, jsTrim c⟩⟩,
          ⟨db.chatrooms, db.messages ++ [⟨id, u.userId, jsTrim c⟩]⟩)

/-- `POST /:id/messages`: the bypass/auth middleware followed by the
handler. -/
def postMessages (db : DB) (id : String) (body : Body) : HttpResponse × DB :=
  match messagesAuthMiddleware body with
  | Except.error r => (r, db)
  | Except.ok u => postMessagesHandler db u id body

/-- `POST /:id/messages/direct`: 400 when `content` or `userId` is falsy,
403 unless the client-supplied `userStatus` equals "approved", 400 when
`!content?.trim() || content.length > 1000`, otherwise saves
`{roomId: id, senderId: userId, content: content.trim()}` with no
chatroom validation and answers 201. -/
def postMessagesDirect (db : DB) (id : String) (body : Body) :
    HttpResponse × DB :=
  if ¬ (truthy body.content ∧ truthy body.userId) then
    (⟨400, "Content and userId are required", none⟩, db)
  else if body.userStatus ≠ some "approved" then
    (⟨403, "Your account must be approved to perform this action", none⟩, db)
  else if jsTrim (body.content.getD "") = "" ∨
      (body.content.getD "").length > 1000 then
    (⟨400, "Message content must be between 1 and 1000 characters", none⟩,
      db)
  else
    (⟨201, "Message sent successfully",
       some ⟨id, body.userId.getD "", jsTrim (body.content.getD "")⟩⟩,
      ⟨db.chatrooms, db.messages ++
        [⟨id, body.userId.getD "", jsTrim (body.content.getD "")⟩]⟩)

/-- `sendMessage` of the client `SocketProvider`, composed with the server
round trip: rejects when the socket is not connected, when no user is in
context, or when `user.status !== "approved"`; otherwise it POSTs to
`/:id/messages/direct` with `{content: content.trim(), userId, username,
userStatus}`. A non-ok response throws (caught, rejected) without any
emission; an ok response emits `new_message` with the stored document
(`data.data`), which the server's `new_message` handler broadcasts.
Result: (client-side error message if rejected, store afterwards, server
emissions for this attempt). -/
def sendMessage (st : ServerState) (db : DB) (isConnected : Bool)
    (user : Option UserRec) (conn roomId content : String) :
    Option String × DB × List SEvent :=
  if ¬ isConnected then
    (some "Cannot send message: Socket not connected", db, [])
  else
    match user with
    | none => (some "Cannot send message: User not authenticated", db, [])
    | some u =>
      if u.status ≠ "approved" then
        (some "Cannot send message: User not approved", db, [])
      else
        let rd := postMessagesDirect db roomId
          ⟨some (jsTrim content), some u.userId, some u.username, some u.status⟩
        if 200 ≤ rd.1.status ∧ rd.1.status < 300 then
          match rd.1.data with
          | some m =>
            (none, rd.2, (newMessageHandler st conn ⟨m.roomId, m.content⟩).2)
          | none => (none, rd.2, [])
        else
          (some ("Failed to send message: " ++ toString rd.1.status), rd.2,
            [])

/-! Concrete fixtures used by closed theorems and witnesses. -/

/-- A server state whose room "r1" has the single member socket "c2". -/
def st0 : ServerState := ⟨fun r => if r = "r1" then ["c2"] else []⟩

/-- A server state whose room "r1" has members "c1", "c2", "c3". -/
def st3 : ServerState :=
  ⟨fun r => if r = "r1" then ["c1", "c2", "c3"] else []⟩

/-- A store with the single chatroom "r1" and no messages. -/
def db0 : DB := ⟨["r1"], []⟩

/-- A user whose approval status is "pending". -/
def pendingUser : UserRec := ⟨"u1", "alice", "pending"⟩

/-- A user whose approval status is "banned". -/
def bannedUser : UserRec := ⟨"u2", "mallory", "banned"⟩

/-- A user whose approval status is "approved". -/
def approvedUser : UserRec := ⟨"u0", "bob", "approved"⟩

/-- A syntactically valid 24-hex ObjectId used as a chatroom id. -/
def objId : String := "0123456789abcdef01234567"

/-- A store with the single chatroom `objId` and no messages. -/
def dbV : DB := ⟨[objId], []⟩

/-! Basic lemmas about the adapter operations. -/

lemma membersOf_socketJoin_self (st : ServerState) (room conn : String) :
    membersOf (socketJoin st room conn) room =
      if conn ∈ membersOf st room then membersOf st room
      else conn :: membersOf st room := by
  simp [membersOf, socketJoin]

lemma membersOf_socketLeave_self (st : ServerState) (room conn : String) :
    membersOf (socketLeave st room conn) room =
      (membersOf st room).filter (fun m => m != conn) := by
  simp [membersOf, socketLeave]

lemma membersOf_disconnectCleanup (st : ServerState) (conn r : String) :
    membersOf (disconnectCleanup st conn) r =
      (membersOf st r).filter (fun m => m != conn) := rfl

/-- Claim C1 (code bug): the source's join_room and new_message handlers
never consult the resolved approval status. At the failing input — a
connection "c1" authenticated as pending user u1/alice, room "r1" already
holding member "c2" — the join handler adds "c1" to the room and notifies
"c2", and the new_message handler broadcasts "c1"'s message to the whole
room, instead of the PermissionDenied with no mutation and no broadcast
that the claim (and the repository's own README, which gates
participation on admin approval) requires. -/
theorem c1_pending_connection_joins_and_broadcasts :
    membersOf (joinRoomHandler st0 "c1" pendingUser "r1").1 "r1" =
      ["c1", "c2"] ∧
    (joinRoomHandler st0 "c1" pendingUser "r1").2 =
      [SEvent.userJoined "r1" ["c2"] "u1" "alice"] ∧
    (newMessageHandler (joinRoomHandler st0 "c1" pendingUser "r1").1 "c1"
        ⟨"r1", "hi"⟩).2 =
      [SEvent.newMessage "r1" ["c1", "c2"] ⟨"r1", "hi"⟩] := by
  refine ⟨?_, ?_, ?_⟩ <;> rfl

/-- Claim C2 (code bug): the admission decision of the message-persistence
routes is driven by client-supplied body fields. Two requests identical
except for the `userStatus` body field produce different outcomes on both
`POST /:id/messages/direct` (201 + persisted document vs 403 + nothing)
and `POST /:id/messages` (the bypass middleware admits the body-claimed
identity, 201, vs 401), so the payload decides approval — contrary to the
claim that only the server-side identity record may. -/
theorem c2_admission_depends_on_payload :
    (postMessagesDirect db0 "r1"
        ⟨some "hi", some "u9", some "eve", some "approved"⟩).1.status = 201 ∧
    (postMessagesDirect db0 "r1"
        ⟨some "hi", some "u9", some "eve", some "approved"⟩).2.messages =
      [⟨"r1", "u9", "hi"⟩] ∧
    (postMessagesDirect db0 "r1"
        ⟨some "hi", some "u9", some "eve", some "pending"⟩).1.status = 403 ∧
    (postMessagesDirect db0 "r1"
        ⟨some "hi", some "u9", some "eve", some "pending"⟩).2.messages =
      [] ∧
    (postMessages dbV objId
        ⟨some "hi", some "u9", some "eve", some "approved"⟩).1.status = 201 ∧
    (postMessages dbV objId
        ⟨some "hi", some "u9", some "eve", some "pending"⟩).1.status =
      401 := by
  refine ⟨?_, ?_, ?_, ?_, ?_, ?_⟩ <;> rfl

/-- The target sockets an emission is addressed to. -/
def eventTargets : SEvent → List String
  | SEvent.userJoined _ t _ _ => t
  | SEvent.userLeft _ t _ _ => t
  | SEvent.newMessage _ t _ => t
  | SEvent.errorTo _ _ => []

/-- Claim C7 (confirmed): a valid new_message payload is broadcast with
`io.to(roomId)`, whose target set is all current members of the room —
the sender's own socket, when it is a member, is among the targets. -/
theorem c7_broadcast_includes_sender (st : ServerState) (conn : String)
    (msg : MsgPayload) (hr : msg.roomId ≠ "") (hc : msg.content ≠ "")
    (hm : conn ∈ membersOf st msg.roomId) :
    (newMessageHandler st conn msg).2 =
      [SEvent.newMessage msg.roomId (ioTo st msg.roomId) msg] ∧
    conn ∈ ioTo st msg.roomId := by
  refine ⟨?_, hm⟩
  simp [newMessageHandler, hr, hc]

/-- Witness for C7 at socket "c2" (a member of "r1" in `st0`). -/
theorem c7_broadcast_includes_sender_witness :
    (newMessageHandler st0 "c2" ⟨"r1", "hi"⟩).2 =
      [SEvent.newMessage "r1" (ioTo st0 "r1") ⟨"r1", "hi"⟩] ∧
    "c2" ∈ ioTo st0 "r1" :=
  c7_broadcast_includes_sender st0 "c2" ⟨"r1", "hi"⟩ (by decide) (by decide)
    (by decide)

/-- Claim C8 (confirmed): both membership-change notifications are emitted
with `socket.to(roomId)`: the joining/leaving socket itself is never among
the targets, while every other member of the room (its membership taken
before the operation) is. -/
theorem c8_membership_change_excludes_self (st : ServerState)
    (conn : String) (user : UserRec) (room : String) :
    (∀ e ∈ (joinRoomHandler st conn user room).2,
      conn ∉ eventTargets e ∧
      ∀ m ∈ membersOf st room, m ≠ conn → m ∈ eventTargets e) ∧
    (∀ e ∈ (leaveRoomHandler st conn user room).2,
      conn ∉ eventTargets e ∧
      ∀ m ∈ membersOf st room, m ≠ conn → m ∈ eventTargets e) := by
  constructor
  · intro e he
    simp only [joinRoomHandler, List.mem_singleton] at he
    subst he
    simp only [eventTargets, socketTo]
    constructor
    · simp
    · intro m hm hne
      rw [membersOf_socketJoin_self]
      refine List.mem_filter.mpr ⟨?_, by simp [hne]⟩
      split
      · exact hm
      · exact List.mem_cons_of_mem _ hm
  · intro e he
    simp only [leaveRoomHandler, List.mem_singleton] at he
    subst he
    simp only [eventTargets, socketTo]
    constructor
    · simp
    · intro m hm hne
      rw [membersOf_socketLeave_self]
      refine List.mem_filter.mpr ⟨?_, by simp [hne]⟩
      exact List.mem_filter.mpr ⟨hm, by simp [hne]⟩

/-- Witness for C8: joining socket "c1" to "r1" in `st0` notifies the
existing member "c2" but never "c1" itself. -/
theorem c8_membership_change_excludes_self_witness :
    "c1" ∉ eventTargets (SEvent.userJoined "r1" ["c2"] "u1" "alice") ∧
    "c2" ∈ eventTargets (SEvent.userJoined "r1" ["c2"] "u1" "alice") :=
  have h :=
    (c8_membership_change_excludes_self st0 "c1" pendingUser "r1").1
      (SEvent.userJoined "r1" ["c2"] "u1" "alice") (by decide)
  ⟨h.1, h.2 "c2" (by decide) (by decide)⟩

/-- Claim C4 counterexample: socket "c1" is a member of room "r1" when it
disconnects, yet the disconnect transition emits no user_left
notification at all — not the exactly-one-per-room the claim states. -/
theorem c4_no_user_left_on_disconnect :
    "c1" ∈ membersOf (joinRoomHandler st0 "c1" approvedUser "r1").1 "r1" ∧
    userLeftEmissions
      (disconnectHandler (joinRoomHandler st0 "c1" approvedUser "r1").1
        "c1").2 = [] := by
  exact ⟨by decide, rfl⟩

/-- Claim C4 as amended (the part the code satisfies): on disconnect the
connection is removed from every room it was in and no later new_message
broadcast targets it, but the transition emits no notification whatsoever
— in particular no user_left for the rooms it was in. -/
theorem c4_disconnect_purges_without_notification (st : ServerState)
    (conn : String) :
    (disconnectHandler st conn).2 = [] ∧
    (∀ r, conn ∉ membersOf (disconnectHandler st conn).1 r) ∧
    (∀ c2 msg room targets pl,
      SEvent.newMessage room targets pl ∈
        (newMessageHandler (disconnectHandler st conn).1 c2 msg).2 →
      conn ∉ targets) := by
  have hpurge : ∀ r, conn ∉ membersOf (disconnectHandler st conn).1 r := by
    intro r hmem
    simp [disconnectHandler, membersOf, disconnectCleanup,
      List.mem_filter] at hmem
  refine ⟨rfl, hpurge, ?_⟩
  intro c2 msg room targets pl hmem
  simp only [newMessageHandler] at hmem
  split at hmem
  · simp at hmem
  · simp only [List.mem_singleton, SEvent.newMessage.injEq] at hmem
    obtain ⟨h1, h2, h3⟩ := hmem
    subst h2
    exact hpurge msg.roomId

/-- Witness for the amended C4: after "c1" (in room "r1") disconnects, it
is gone from "r1", nothing was emitted, and a subsequent message to "r1"
is not delivered to it. -/
theorem c4_disconnect_purges_without_notification_witness :
    (disconnectHandler (joinRoomHandler st0 "c1" approvedUser "r1").1
        "c1").2 = [] ∧
    "c1" ∉ membersOf
      (disconnectHandler (joinRoomHandler st0 "c1" approvedUser "r1").1
        "c1").1 "r1" ∧
    "c1" ∉ (["c2"] : List String) :=
  have h := c4_disconnect_purges_without_notification
    (joinRoomHandler st0 "c1" approvedUser "r1").1 "c1"
  ⟨h.1, h.2.1 "r1", h.2.2 "c2" ⟨"r1", "hi"⟩ "r1" ["c2"] ⟨"r1", "hi"⟩
    (by decide)⟩

/-- Claim C5 (confirmed): joining the same room twice in succession is
idempotent — the second `socket.join` is a no-op on the adapter's room
set, so the connection appears exactly once in the membership and exactly
once among the targets of a subsequent room broadcast. -/
theorem c5_join_idempotent (st : ServerState) (conn : String)
    (user : UserRec) (room : String) (h : (membersOf st room).Nodup) :
    (membersOf
        (joinRoomHandler (joinRoomHandler st conn user room).1 conn user
          room).1 room).count conn = 1 ∧
    (ioTo
        (joinRoomHandler (joinRoomHandler st conn user room).1 conn user
          room).1 room).count conn = 1 := by
  have hstep : ∀ s : ServerState,
      (joinRoomHandler s conn user room).1 = socketJoin s room conn :=
    fun s => rfl
  rw [hstep, hstep, ioTo, membersOf_socketJoin_self,
    membersOf_socketJoin_self]
  by_cases hc : conn ∈ membersOf st room
  · rw [if_pos hc, if_pos hc]
    exact ⟨List.count_eq_one_of_mem h hc, List.count_eq_one_of_mem h hc⟩
  · rw [if_neg hc]
    have hmem : conn ∈ conn :: membersOf st room := List.mem_cons_self _ _
    have hnd : (conn :: membersOf st room).Nodup :=
      List.nodup_cons.mpr ⟨hc, h⟩
    rw [if_pos hmem]
    exact ⟨List.count_eq_one_of_mem hnd hmem,
      List.count_eq_one_of_mem hnd hmem⟩

/-- Witness for C5: "c1" joins "r1" twice starting from `st0`; it ends up
in the room exactly once. -/
theorem c5_join_idempotent_witness :
    (membersOf
        (joinRoomHandler (joinRoomHandler st0 "c1" approvedUser "r1").1
          "c1" approvedUser "r1").1 "r1").count "c1" = 1 :=
  (c5_join_idempotent st0 "c1" approvedUser "r1" (by decide)).1

/-- One delivery attempt of the broadcast fan-out: a member socket that is
mid-teardown (`failing`) throws; a live one accepts the packet. -/
def attemptDeliver (failing : String → Bool) (conn : String) :
    Except String Unit :=
  if failing conn then Except.error "delivery failed" else Except.ok ()

/-- The best-effort fan-out over a membership snapshot: each delivery
attempt's exception is contained (the member is recorded as failed) and
iteration continues; the fold is total, so no exception reaches the
caller. Returns (delivered members, failed members). -/
def deliverAll (members : List String) (failing : String → Bool) :
    List String × List String :=
  members.foldr
    (fun t acc =>
      match attemptDeliver failing t with
      | Except.ok _ => (t :: acc.1, acc.2)
      | Except.error _ => (acc.1, t :: acc.2)) ([], [])

/-- `broadcastMessage`: the `io.to(roomId).emit` fan-out of the
new_message handler, over the membership snapshot resolved at call
time. -/
def broadcastMessage (st : ServerState) (room : String)
    (failing : String → Bool) : List String × List String :=
  deliverAll (membersOf st room) failing

lemma deliverAll_eq (members : List String) (failing : String → Bool) :
    deliverAll members failing =
      (members.filter (fun m => !failing m), members.filter failing) := by
  induction members with
  | nil => rfl
  | cons a l ih =>
    have hstep : deliverAll (a :: l) failing =
        match attemptDeliver failing a with
        | Except.ok _ =>
          (a :: (deliverAll l failing).1, (deliverAll l failing).2)
        | Except.error _ =>
          ((deliverAll l failing).1, a :: (deliverAll l failing).2) := rfl
    rw [hstep, ih]
    cases hfa : failing a <;> simp [attemptDeliver, hfa, List.filter]

lemma length_filter_not_beq (l : List String) (K : String) (hn : l.Nodup)
    (hK : K ∈ l) :
    (l.filter (fun m => !(m == K))).length = l.length - 1 := by
  induction l with
  | nil => cases hK
  | cons a t ih =>
    rcases List.mem_cons.mp hK with rfl | hKt
    · have hnt : K ∉ t := (List.nodup_cons.mp hn).1
      have hself : t.filter (fun m => !(m == K)) = t := by
        refine List.filter_eq_self.mpr ?_
        intro m hm
        have hmne : m ≠ K := fun e => hnt (e ▸ hm)
        simp [hmne]
      rw [List.filter_cons_of_neg (by simp), hself]
      simp
    · have ha : a ≠ K := by
        rintro rfl
        exact (List.nodup_cons.mp hn).1 hKt
      have htp : 0 < t.length := List.length_pos.mpr (List.ne_nil_of_mem hKt)
      have hrec := ih (List.nodup_cons.mp hn).2 hKt
      rw [List.filter_cons_of_pos (by simp [ha])]
      simp only [List.length_cons]
      omega

lemma filter_beq_singleton (l : List String) (K : String) (hn : l.Nodup)
    (hK : K ∈ l) : l.filter (fun m => m == K) = [K] := by
  induction l with
  | nil => cases hK
  | cons a t ih =>
    rcases List.mem_cons.mp hK with rfl | hKt
    · have hnt : K ∉ t := (List.nodup_cons.mp hn).1
      have hrest : t.filter (fun m => m == K) = [] := by
        refine List.filter_eq_nil_iff.mpr ?_
        intro m hm
        have hmne : m ≠ K := fun e => hnt (e ▸ hm)
        simp [hmne]
      rw [List.filter_cons_of_pos (by simp), hrest]
    · have ha : a ≠ K := by
        rintro rfl
        exact (List.nodup_cons.mp hn).1 hKt
      rw [List.filter_cons_of_neg (by simp [ha])]
      exact ih (List.nodup_cons.mp hn).2 hKt

/-- Claim C6 (confirmed): when delivery throws for exactly one member K of
the room, the fan-out still delivers to the other N−1 members, records K
as the only failure, and — being a total fold over the snapshot with every
per-member exception contained — returns to its caller instead of
raising. -/
theorem c6_fanout_survives_member_failure (st : ServerState)
    (room : String) (failing : String → Bool) (K : String)
    (hK : K ∈ membersOf st room) (hall : ∀ m, failing m = (m == K))
    (hn : (membersOf st room).Nodup) :
    (broadcastMessage st room failing).1.length =
      (membersOf st room).length - 1 ∧
    (∀ m ∈ membersOf st room, m ≠ K →
      m ∈ (broadcastMessage st room failing).1) ∧
    (broadcastMessage st room failing).2 = [K] := by
  have hf : failing = fun m => m == K := funext hall
  rw [broadcastMessage, deliverAll_eq, hf]
  refine ⟨length_filter_not_beq _ K hn hK, ?_,
    filter_beq_singleton _ K hn hK⟩
  intro m hm hne
  exact List.mem_filter.mpr ⟨hm, by simp [hne]⟩

/-- Witness for C6: in the three-member room of `st3`, a delivery failure
for "c2" leaves "c1" and "c3" served and logs exactly ["c2"]. -/
theorem c6_fanout_survives_member_failure_witness :
    (broadcastMessage st3 "r1" (fun m => m == "c2")).1.length = 2 ∧
    "c3" ∈ (broadcastMessage st3 "r1" (fun m => m == "c2")).1 ∧
    (broadcastMessage st3 "r1" (fun m => m == "c2")).2 = ["c2"] :=
  have h := c6_fanout_survives_member_failure st3 "r1"
    (fun m => m == "c2") "c2" (by decide) (fun m => rfl) (by decide)
  ⟨h.1.trans (by decide), h.2.1 "c3" (by decide) (by decide), h.2.2⟩

/-- Claim C3 (confirmed): along the send path, a new_message broadcast
happens exactly when the message was first durably persisted. Whenever the
persistence call leaves the store unchanged (guard rejection or non-ok
response), no new_message emission occurs; when it persists, exactly one
new_message emission occurs, targeting the members of the room. `roomId`
is a non-empty route parameter. -/
theorem c3_broadcast_iff_persisted (st : ServerState) (db : DB)
    (isConnected : Bool) (user : Option UserRec)
    (conn roomId content : String) (hr : roomId ≠ "") :
    ((sendMessage st db isConnected user conn roomId content).2.1.messages =
        db.messages →
      newMessageEmissions
        (sendMessage st db isConnected user conn roomId content).2.2 =
        []) ∧
    ((sendMessage st db isConnected user conn roomId content).2.1.messages ≠
        db.messages →
      newMessageEmissions
        (sendMessage st db isConnected user conn roomId content).2.2 =
        [(roomId, ioTo st roomId)]) := by
  cases isConnected with
  | false => exact ⟨fun _ => rfl, fun h => absurd rfl h⟩
  | true =>
    cases user with
    | none => exact ⟨fun _ => rfl, fun h => absurd rfl h⟩
    | some u =>
      by_cases hs : u.status = "approved"
      · by_cases h1 : jsTrim content = ""
        · have hsend : sendMessage st db true (some u) conn roomId content =
              (some ("Failed to send message: " ++ toString 400), db, []) := by
            simp [sendMessage, hs, postMessagesDirect, truthy, h1]
          rw [hsend]
          exact ⟨fun _ => rfl, fun h => absurd rfl h⟩
        · by_cases h2 : u.userId = ""
          · have hsend :
                sendMessage st db true (some u) conn roomId content =
                (some ("Failed to send message: " ++ toString 400), db,
                  []) := by
              simp [sendMessage, hs, postMessagesDirect, truthy, h1, h2]
            rw [hsend]
            exact ⟨fun _ => rfl, fun h => absurd rfl h⟩
          · by_cases h3 : jsTrim (jsTrim content) = "" ∨
                (jsTrim content).length > 1000
            · have hsend :
                  sendMessage st db true (some u) conn roomId content =
                  (some ("Failed to send message: " ++ toString 400), db,
                    []) := by
                simp [sendMessage, hs, postMessagesDirect, truthy, h1, h2,
                  h3]
              rw [hsend]
              exact ⟨fun _ => rfl, fun h => absurd rfl h⟩
            · have hpd : postMessagesDirect db roomId
                  ⟨some (jsTrim content), some u.userId, some u.username,
                    some "approved"⟩ =
                  (⟨201, "Message sent successfully",
                      some ⟨roomId, u.userId, jsTrim (jsTrim content)⟩⟩,
                    ⟨db.chatrooms, db.messages ++
                      [⟨roomId, u.userId, jsTrim (jsTrim content)⟩]⟩) := by
                simp [postMessagesDirect, truthy, h1, h2, h3]
              push_neg at h3
              obtain ⟨h3a, _⟩ := h3
              have hsend :
                  sendMessage st db true (some u) conn roomId content =
                  (none,
                    ⟨db.chatrooms, db.messages ++
                      [⟨roomId, u.userId, jsTrim (jsTrim content)⟩]⟩,
                    (newMessageHandler st conn
                      ⟨roomId, jsTrim (jsTrim content)⟩).2) := by
                simp [sendMessage, hs, hpd]
              rw [hsend]
              have hnm : (newMessageHandler st conn
                    ⟨roomId, jsTrim (jsTrim content)⟩).2 =
                  [SEvent.newMessage roomId (ioTo st roomId)
                    ⟨roomId, jsTrim (jsTrim content)⟩] := by
                simp [newMessageHandler, hr, h3a]
              rw [hnm]
              constructor
              · intro hmes
                exfalso
                have := congrArg List.length hmes
                simp at this
              · intro _
                simp [newMessageEmissions]
      · have hsend : sendMessage st db true (some u) conn roomId content =
            (some "Cannot send message: User not approved", db, []) := by
          simp [sendMessage, hs]
        rw [hsend]
        exact ⟨fun _ => rfl, fun h => absurd rfl h⟩

/-- Witness for C3: an approved user's send through a connected socket
persists and is broadcast to the members of "r1". -/
theorem c3_broadcast_iff_persisted_witness :
    (sendMessage st0 db0 true (some approvedUser) "c1" "r1"
        " gg ").2.1.messages ≠ db0.messages ∧
    newMessageEmissions
      (sendMessage st0 db0 true (some approvedUser) "c1" "r1" " gg ").2.2 =
      [("r1", ioTo st0 "r1")] := by
  have h := c3_broadcast_iff_persisted st0 db0 true (some approvedUser)
    "c1" "r1" " gg " (by decide)
  have hne : (sendMessage st0 db0 true (some approvedUser) "c1" "r1"
      " gg ").2.1.messages ≠ db0.messages := by decide
  exact ⟨hne, h.2 hne⟩

/-- Claim C9 counterexample: a pending sender and a banned sender receive
the exact same error — the client guard throws one fixed string for every
non-approved status, and the direct endpoint answers the same 403
response for "pending" and for "banned" — so no content distinguishes
not-yet-approved from rejected/banned. -/
theorem c9_pending_and_banned_get_same_error :
    (sendMessage st0 db0 true (some pendingUser) "c1" "r1" "hi").1 =
      (sendMessage st0 db0 true (some bannedUser) "c1" "r1" "hi").1 ∧
    (sendMessage st0 db0 true (some pendingUser) "c1" "r1" "hi").1 =
      some "Cannot send message: User not approved" ∧
    (postMessagesDirect db0 "r1"
        ⟨some "hi", some "u1", some "alice", some "pending"⟩).1 =
      (postMessagesDirect db0 "r1"
        ⟨some "hi", some "u2", some "mallory", some "banned"⟩).1 := by
  exact ⟨rfl, rfl, rfl⟩

/-- Claim C9 as amended: an unapproved sender does receive an explicit
permission error, but its content is one and the same for every
non-approved status — the client guard always throws
"Cannot send message: User not approved" (and sends nothing), and the
direct endpoint always answers 403 with the same message — with no
distinction between pending and rejected/banned. -/
theorem c9_unapproved_error_uniform (st : ServerState) (db : DB)
    (conn roomId content : String) (u : UserRec)
    (h : u.status ≠ "approved") :
    (sendMessage st db true (some u) conn roomId content).1 =
      some "Cannot send message: User not approved" ∧
    (sendMessage st db true (some u) conn roomId content).2.1 = db ∧
    (sendMessage st db true (some u) conn roomId content).2.2 = [] ∧
    (∀ (db2 : DB) (id : String) (body : Body),
      truthy body.content = true → truthy body.userId = true →
      body.userStatus ≠ some "approved" →
      (postMessagesDirect db2 id body).1 =
        ⟨403, "Your account must be approved to perform this action",
          none⟩ ∧
      (postMessagesDirect db2 id body).2 = db2) := by
  have hsend : sendMessage st db true (some u) conn roomId content =
      (some "Cannot send message: User not approved", db, []) := by
    simp [sendMessage, h]
  refine ⟨by rw [hsend], by rw [hsend], by rw [hsend], ?_⟩
  intro db2 id body hc hu hstat
  have hpd : postMessagesDirect db2 id body =
      (⟨403, "Your account must be approved to perform this action", none⟩,
        db2) := by
    simp [postMessagesDirect, hc, hu, hstat]
  exact ⟨by rw [hpd], by rw [hpd]⟩

/-- Witness for the amended C9 at a pending client-side sender and a
rejected direct-endpoint request. -/
theorem c9_unapproved_error_uniform_witness :
    (sendMessage st0 db0 true (some pendingUser) "c2" "r1" "yo").1 =
      some "Cannot send message: User not approved" ∧
    (postMessagesDirect db0 "r1"
        ⟨some "yo", some "u1", some "alice", some "rejected"⟩).1.status =
      403 := by
  have h := c9_unapproved_error_uniform st0 db0 "c2" "r1" "yo" pendingUser
    (by decide)
  refine ⟨h.1, ?_⟩
  have h4 := (h.2.2.2 db0 "r1"
    ⟨some "yo", some "u1", some "alice", some "rejected"⟩ (by decide)
    (by decide) (by decide)).1
  rw [h4]

/-- Content that the routes' validation rejects: absent, empty or
whitespace-only after trimming, or longer than 1000 characters. -/
def badContent : Option String → Bool
  | none => true
  | some s => jsTrim s == "" || 1000 < s.length

/-- Claim C10 counterexample: a direct request with whitespace-only
content but a non-approved `userStatus` is answered 403, not the 400 the
claim states (the approval check runs before content validation); no
message is persisted. -/
theorem c10_whitespace_content_can_yield_403 :
    (postMessagesDirect db0 "r1"
        ⟨some " ", some "u1", some "alice", some "pending"⟩).1.status =
      403 ∧
    (postMessagesDirect db0 "r1"
        ⟨some " ", some "u1", some "alice", some "pending"⟩).2.messages =
      [] := by
  exact ⟨rfl, rfl⟩

lemma postMessagesDirect_spec (db : DB) (id : String) (body : Body) :
    ((postMessagesDirect db id body).1.status ≠ 201 ∧
      (postMessagesDirect db id body).2 = db) ∨
    ((postMessagesDirect db id body).1.status = 201 ∧
      ∃ c, body.content = some c ∧ jsTrim c ≠ "" ∧ c.length ≤ 1000 ∧
        (postMessagesDirect db id body).2 =
          ⟨db.chatrooms, db.messages ++
            [⟨id, body.userId.getD "", jsTrim c⟩]⟩) := by
  cases hb : body.content with
  | none =>
    left
    refine ⟨?_, ?_⟩ <;> simp [postMessagesDirect, hb, truthy]
  | some s =>
    by_cases hse : s = ""
    · left
      refine ⟨?_, ?_⟩ <;> simp [postMessagesDirect, hb, hse, truthy]
    · have ht : truthy (some s) = true := by simp [truthy, hse]
      by_cases hu : truthy body.userId = true
      · by_cases hstat : body.userStatus = some "approved"
        · by_cases hgood : jsTrim s = "" ∨ s.length > 1000
          · left
            rcases hgood with h | h <;> refine ⟨?_, ?_⟩ <;>
              simp [postMessagesDirect, hb, ht, hu, hstat, h]
          · right
            have hpd : postMessagesDirect db id body =
                (⟨201, "Message sent successfully",
                    some ⟨id, body.userId.getD "", jsTrim s⟩⟩,
                  ⟨db.chatrooms, db.messages ++
                    [⟨id, body.userId.getD "", jsTrim s⟩]⟩) := by
              simp [postMessagesDirect, hb, ht, hu, hstat, hgood]
            rw [hpd]
            have hlen : s.length ≤ 1000 := by
              by_contra hlt
              exact hgood (Or.inr (by omega))
            exact ⟨rfl, s, rfl, fun h => hgood (Or.inl h), hlen, rfl⟩
        · left
          refine ⟨?_, ?_⟩ <;>
            simp [postMessagesDirect, hb, ht, hu, hstat]
      · left
        refine ⟨?_, ?_⟩ <;> simp [postMessagesDirect, hb, ht, hu]

lemma messagesAuthMiddleware_ok (body : Body) (u : UserRec)
    (h : messagesAuthMiddleware body = Except.ok u) :
    u = ⟨body.userId.getD "", body.username.getD "", "approved"⟩ ∧
    truthy body.userId = true ∧ body.userStatus = some "approved" := by
  unfold messagesAuthMiddleware requireApprovedUser at h
  split at h
  · rename_i hcond
    simp only [Except.ok.injEq] at h
    exact ⟨h.symm, hcond.1, hcond.2⟩
  · simp at h

lemma messagesAuthMiddleware_error_status (body : Body) (r : HttpResponse)
    (h : messagesAuthMiddleware body = Except.error r) : r.status ≠ 201 := by
  unfold messagesAuthMiddleware requireApprovedUser at h
  split at h
  · simp at h
  · simp only [Except.error.injEq] at h
    rw [← h]
    decide

lemma postMessages_spec (db : DB) (id : String) (body : Body) :
    ((postMessages db id body).1.status ≠ 201 ∧
      (postMessages db id body).2 = db) ∨
    ((postMessages db id body).1.status = 201 ∧
      ∃ c, body.content = some c ∧ jsTrim c ≠ "" ∧ c.length ≤ 1000 ∧
        (postMessages db id body).2 =
          ⟨db.chatrooms, db.messages ++
            [⟨id, body.userId.getD "", jsTrim c⟩]⟩) := by
  cases hmid : messagesAuthMiddleware body with
  | error r =>
    left
    have hne := messagesAuthMiddleware_error_status body r hmid
    refine ⟨?_, ?_⟩ <;> simp [postMessages, hmid, hne]
  | ok u =>
    obtain ⟨hu, -, -⟩ := messagesAuthMiddleware_ok body u hmid
    simp only [postMessages, hmid]
    unfold postMessagesHandler
    split
    · left
      exact ⟨by simp, rfl⟩
    · split
      · left
        exact ⟨by simp, rfl⟩
      · split
        · left
          exact ⟨by simp, rfl⟩
        · cases hb : body.content with
          | none =>
            left
            exact ⟨by simp, by simp⟩
          | some c =>
            dsimp only
            split
            · left
              exact ⟨by simp, by simp⟩
            · rename_i hgood
              right
              have hlen : c.length ≤ 1000 := by
                by_contra hlt
                exact hgood (Or.inr (by omega))
              refine ⟨by simp, c, rfl, fun h => hgood (Or.inl h), hlen,
                ?_⟩
              simp [hu]

/-- Claim C10 as amended: rejected content (absent, empty or
whitespace-only after trimming, or longer than 1000 characters) is never
persisted by either endpoint; the response status is 400 specifically
when the request passes the checks that run first (truthy userId and
approved userStatus — plus, on `POST /:id/messages`, a valid ObjectId
naming an existing chatroom); otherwise an earlier 400/401/403/404
applies. Content that passes validation is stored trimmed. -/
theorem c10_content_validation :
    (∀ (db : DB) (id : String) (body : Body),
      badContent body.content = true →
      (postMessagesDirect db id body).2 = db ∧
      (postMessages db id body).2 = db) ∧
    (∀ (db : DB) (id : String) (body : Body),
      badContent body.content = true → truthy body.userId = true →
      body.userStatus = some "approved" →
      (postMessagesDirect db id body).1.status = 400 ∧
      (isValidObjectId id = true → id ∈ db.chatrooms →
        (postMessages db id body).1.status = 400)) ∧
    (∀ (db : DB) (id : String) (body : Body),
      (postMessagesDirect db id body).1.status = 201 →
      (postMessagesDirect db id body).2.messages =
        db.messages ++
          [⟨id, body.userId.getD "", jsTrim (body.content.getD "")⟩]) ∧
    (∀ (db : DB) (id : String) (body : Body),
      (postMessages db id body).1.status = 201 →
      (postMessages db id body).2.messages =
        db.messages ++
          [⟨id, body.userId.getD "", jsTrim (body.content.getD "")⟩]) := by
  have hbadElim : ∀ (c : String), badContent (some c) = true →
      jsTrim c = "" ∨ 1000 < c.length := by
    intro c hb
    simpa [badContent] using hb
  refine ⟨?_, ?_, ?_, ?_⟩
  · intro db id body hbad
    constructor
    · rcases postMessagesDirect_spec db id body with ⟨_, h2⟩ |
        ⟨_, c, hb, hne, hlen, _⟩
      · exact h2
      · exfalso
        rw [hb] at hbad
        rcases hbadElim c hbad with h | h
        · exact hne h
        · omega
    · rcases postMessages_spec db id body with ⟨_, h2⟩ |
        ⟨_, c, hb, hne, hlen, _⟩
      · exact h2
      · exfalso
        rw [hb] at hbad
        rcases hbadElim c hbad with h | h
        · exact hne h
        · omega
  · intro db id body hbad huid hstat
    constructor
    · cases hb : body.content with
      | none => simp [postMessagesDirect, hb, truthy]
      | some s =>
        by_cases hse : s = ""
        · simp [postMessagesDirect, hb, hse, truthy]
        · have ht : truthy (some s) = true := by simp [truthy, hse]
          rw [hb] at hbad
          rcases hbadElim s hbad with h | h <;>
            simp [postMessagesDirect, hb, ht, hstat, huid, h]
    · intro hval hmem
      have huid' : body.userId.getD "" ≠ "" := by
        cases hu : body.userId with
        | none => rw [hu] at huid; simp [truthy] at huid
        | some s' =>
          rw [hu] at huid
          simpa [truthy] using huid
      have hmid : messagesAuthMiddleware body = Except.ok
          ⟨body.userId.getD "", body.username.getD "", "approved"⟩ := by
        simp [messagesAuthMiddleware, huid, hstat]
      cases hb : body.content with
      | none =>
        simp [postMessages, hmid, postMessagesHandler, huid', hval, hmem,
          hb]
      | some s =>
        rw [hb] at hbad
        rcases hbadElim s hbad with h | h <;>
          simp [postMessages, hmid, postMessagesHandler, huid', hval,
            hmem, hb, h]
  · intro db id body h201
    rcases postMessagesDirect_spec db id body with ⟨hne, _⟩ |
      ⟨_, c, hb, _, _, h2⟩
    · exact absurd h201 hne
    · rw [h2, hb]
      rfl
  · intro db id body h201
    rcases postMessages_spec db id body with ⟨hne, _⟩ |
      ⟨_, c, hb, _, _, h2⟩
    · exact absurd h201 hne
    · rw [h2, hb]
      rfl

/-- Witness for the amended C10: whitespace-only content with an approved
status is not persisted and answered 400; content " hi " that passes is
stored as the trimmed "hi". -/
theorem c10_content_validation_witness :
    (postMessagesDirect db0 "r1"
        ⟨some "  ", some "u1", some "alice", some "approved"⟩).2 = db0 ∧
    (postMessagesDirect db0 "r1"
        ⟨some "  ", some "u1", some "alice", some "approved"⟩).1.status =
      400 ∧
    (postMessagesDirect db0 "r1"
        ⟨some " hi ", some "u9", some "eve", some "approved"⟩).2.messages =
      db0.messages ++ [⟨"r1", "u9", "hi"⟩] := by
  have h := c10_content_validation
  refine ⟨(h.1 db0 "r1" _ (by decide)).1,
    (h.2.1 db0 "r1" _ (by decide) (by decide) rfl).1, ?_⟩
  have h3 := h.2.2.1 db0 "r1"
    ⟨some " hi ", some "u9", some "eve", some "approved"⟩ (by decide)
  exact h3.trans (by decide)

end Gamerz
